import Mathlib

/-!
Verification of the caterpillar update daemon (src/src/dbus.rs, src/src/device.rs,
src/src/rauc.rs) via a shallow embedding.

External collaborators are modelled as function parameters:
* the RAUC installer's `info` D-Bus call becomes `info : String → Option (String × String)`
  (`none` = the call failed with an error);
* the external semver crate's strict `Version::parse` becomes
  `parse : String → Option Version` (`none` = parse error);
* the UDisks2 `unmount` D-Bus call becomes `gw : String → Bool`
  (`true` = the unmount request succeeded).

Machine integers: the Rust `usize` iteration counter is modelled as `Nat`
(the daemon only ever increments it by one, overflow is unreachable in any
realistic lifetime and nothing in the claims depends on wraparound).
Strings are compared by the code-point order `strCmp`, which agrees with
Rust's byte-wise `Ord for String` on UTF-8 data.
-/

deriving instance DecidableEq for Except

/-- Semantic version as used by the daemon (major.minor.patch, strictly parsed;
the spec's data model restricts bundle/system versions to this shape). -/
structure Version where
  major : Nat
  minor : Nat
  patch : Nat
deriving DecidableEq

/-- Comparator on characters by code point (byte order of UTF-8 agrees with this). -/
def charCmp (a b : Char) : Ordering :=
  if a.toNat < b.toNat then .lt else if b.toNat < a.toNat then .gt else .eq

/-- Lexicographic comparator on character lists (Rust's `Ord for String`). -/
def listCharCmp : List Char → List Char → Ordering
  | [], [] => .eq
  | [], _ :: _ => .lt
  | _ :: _, [] => .gt
  | c :: cs, d :: ds =>
    match charCmp c d with
    | .eq => listCharCmp cs ds
    | o => o

/-- Comparator on strings (Rust's `String::cmp`). -/
def strCmp (a b : String) : Ordering :=
  listCharCmp a.data b.data

/-- Comparator on versions: major, then minor, then patch (semver `Ord` restricted
to plain versions without pre-release/build metadata). -/
def Version.cmp (a b : Version) : Ordering :=
  if a.major < b.major then .lt else if b.major < a.major then .gt
  else if a.minor < b.minor then .lt else if b.minor < a.minor then .gt
  else if a.patch < b.patch then .lt else if b.patch < a.patch then .gt
  else .eq

/-- Strict `a < b` on versions as a Bool (Rust's `Version::gt` with the
arguments flipped). -/
def vLtB (a b : Version) : Bool :=
  match Version.cmp a b with
  | .lt => true
  | _ => false

theorem charCmp_self (a : Char) : charCmp a a = .eq := by
  simp [charCmp]

theorem charCmp_eq_toNat {a b : Char} (h : charCmp a b = .eq) : a.toNat = b.toNat := by
  unfold charCmp at h
  split at h
  · exact absurd h (by simp)
  · split at h
    · exact absurd h (by simp)
    · omega

theorem charCmp_congr_left {a b : Char} (h : charCmp a b = .eq) (c : Char) :
    charCmp b c = charCmp a c := by
  have := charCmp_eq_toNat h
  simp [charCmp, this]

theorem charCmp_congr_right {a b : Char} (h : charCmp a b = .eq) (c : Char) :
    charCmp c a = charCmp c b := by
  have := charCmp_eq_toNat h
  simp [charCmp, this]

theorem charCmp_lt_trans {a b c : Char} (h1 : charCmp a b = .lt) (h2 : charCmp b c = .lt) :
    charCmp a c = .lt := by
  unfold charCmp at h1 h2 ⊢
  split_ifs at h1 h2 ⊢ <;> first | rfl | (exfalso; omega) | simp at h1 | simp at h2

theorem charCmp_swap (a b : Char) : charCmp a b = (charCmp b a).swap := by
  unfold charCmp
  split_ifs <;> first | rfl | (exfalso; omega)

theorem listCharCmp_self (l : List Char) : listCharCmp l l = .eq := by
  induction l with
  | nil => rfl
  | cons c cs ih => simp [listCharCmp, charCmp_self, ih]

theorem listCharCmp_congr_left :
    ∀ {a b : List Char}, listCharCmp a b = .eq → ∀ c, listCharCmp b c = listCharCmp a c := by
  intro a
  induction a with
  | nil =>
    intro b h c
    cases b with
    | nil => rfl
    | cons d ds => simp [listCharCmp] at h
  | cons x xs ih =>
    intro b h c
    cases b with
    | nil => simp [listCharCmp] at h
    | cons y ys =>
      simp only [listCharCmp] at h
      rcases hxy : charCmp x y with _ | _ | _ <;> rw [hxy] at h
      · exact absurd h (by simp)
      · cases c with
        | nil => rfl
        | cons z zs =>
          simp only [listCharCmp]
          rw [charCmp_congr_left hxy z, ih h zs]
      · exact absurd h (by simp)

theorem listCharCmp_lt_trans :
    ∀ {a b c : List Char}, listCharCmp a b = .lt → listCharCmp b c = .lt →
      listCharCmp a c = .lt := by
  intro a
  induction a with
  | nil =>
    intro b c h1 h2
    cases b with
    | nil => exact absurd h1 (by simp [listCharCmp])
    | cons y ys =>
      cases c with
      | nil => exact absurd h2 (by simp [listCharCmp])
      | cons z zs => simp [listCharCmp]
  | cons x xs ih =>
    intro b c h1 h2
    cases b with
    | nil => exact absurd h1 (by simp [listCharCmp])
    | cons y ys =>
      cases c with
      | nil => exact absurd h2 (by simp [listCharCmp])
      | cons z zs =>
        simp only [listCharCmp] at h1 h2 ⊢
        rcases hxy : charCmp x y with _ | _ | _ <;> simp only [hxy] at h1
        · rcases hyz : charCmp y z with _ | _ | _ <;> simp only [hyz] at h2
          · have hxz := charCmp_lt_trans hxy hyz
            simp [hxz]
          · have hxz : charCmp x z = .lt := ((charCmp_congr_right hyz x).symm).trans hxy
            simp [hxz]
          · exact absurd h2 (by simp)
        · rcases hyz : charCmp y z with _ | _ | _ <;> simp only [hyz] at h2
          · have hxz : charCmp x z = .lt := ((charCmp_congr_left hxy z).symm).trans hyz
            simp [hxz]
          · have hxz : charCmp x z = .eq := ((charCmp_congr_left hxy z).symm).trans hyz
            simp only [hxz]
            exact ih h1 h2
          · exact absurd h2 (by simp)
        · exact absurd h1 (by simp)

theorem listCharCmp_swap : ∀ (a b : List Char), listCharCmp a b = (listCharCmp b a).swap := by
  intro a
  induction a with
  | nil =>
    intro b
    cases b <;> rfl
  | cons x xs ih =>
    intro b
    cases b with
    | nil => rfl
    | cons y ys =>
      simp only [listCharCmp]
      rw [charCmp_swap x y]
      rcases charCmp y x with _ | _ | _ <;> simp [Ordering.swap, ih ys]

theorem vCmp_self (a : Version) : Version.cmp a a = .eq := by
  simp [Version.cmp]

theorem vCmp_lt_iff (a b : Version) :
    Version.cmp a b = .lt ↔
      (a.major < b.major ∨ (a.major = b.major ∧
        (a.minor < b.minor ∨ (a.minor = b.minor ∧ a.patch < b.patch)))) := by
  unfold Version.cmp
  split_ifs <;> simp <;> omega

theorem vCmp_gt_iff (a b : Version) :
    Version.cmp a b = .gt ↔
      (b.major < a.major ∨ (b.major = a.major ∧
        (b.minor < a.minor ∨ (b.minor = a.minor ∧ b.patch < a.patch)))) := by
  unfold Version.cmp
  split_ifs <;> simp <;> omega

theorem vCmp_eq {a b : Version} (h : Version.cmp a b = .eq) : a = b := by
  obtain ⟨a1, a2, a3⟩ := a
  obtain ⟨b1, b2, b3⟩ := b
  unfold Version.cmp at h
  split_ifs at h <;> simp_all <;> omega

theorem vCmp_lt_trans {a b c : Version} (h1 : Version.cmp a b = .lt)
    (h2 : Version.cmp b c = .lt) : Version.cmp a c = .lt := by
  rw [vCmp_lt_iff] at h1 h2 ⊢
  omega

theorem strCmp_self (a : String) : strCmp a a = .eq :=
  listCharCmp_self _

theorem strCmp_congr_left {a b : String} (h : strCmp a b = .eq) (c : String) :
    strCmp b c = strCmp a c :=
  listCharCmp_congr_left h _

theorem listCharCmp_congr_right {a b : List Char} (h : listCharCmp a b = .eq) (c : List Char) :
    listCharCmp c a = listCharCmp c b := by
  rw [listCharCmp_swap c a, listCharCmp_swap c b, listCharCmp_congr_left h c]

theorem strCmp_congr_right {a b : String} (h : strCmp a b = .eq) (c : String) :
    strCmp c a = strCmp c b :=
  listCharCmp_congr_right h _

theorem strCmp_lt_trans {a b c : String} (h1 : strCmp a b = .lt) (h2 : strCmp b c = .lt) :
    strCmp a c = .lt :=
  listCharCmp_lt_trans h1 h2

theorem strCmp_swap (a b : String) : strCmp a b = (strCmp b a).swap :=
  listCharCmp_swap _ _

/-- RAUC update bundle (rauc.rs `UpdateBundle`): filesystem path, compatibility tag,
parsed semantic version, override flag. -/
structure UpdateBundle where
  path : String
  compatible : String
  version : Version
  is_override : Bool
deriving DecidableEq

/-- `impl Ord for UpdateBundle` (rauc.rs): compare the compatibility strings first;
on equality compare the versions. -/
def UpdateBundle.cmp (a b : UpdateBundle) : Ordering :=
  match strCmp a.compatible b.compatible with
  | .eq => Version.cmp a.version b.version
  | .lt => .lt
  | .gt => .gt

/-- The `a <= b` relation of the stable ascending `bundles.sort()` call. -/
def UpdateBundle.le (a b : UpdateBundle) : Prop :=
  UpdateBundle.cmp a b ≠ Ordering.gt

instance : DecidableRel UpdateBundle.le :=
  fun a b => inferInstanceAs (Decidable (UpdateBundle.cmp a b ≠ Ordering.gt))

theorem bundleCmp_self (a : UpdateBundle) : UpdateBundle.cmp a a = .eq := by
  unfold UpdateBundle.cmp
  rw [strCmp_self]
  exact vCmp_self _

theorem bundle_le_refl (a : UpdateBundle) : a.le a := by
  unfold UpdateBundle.le
  rw [bundleCmp_self]
  decide

theorem vLe_trans {x y z : Version} (h1 : Version.cmp x y ≠ .gt) (h2 : Version.cmp y z ≠ .gt) :
    Version.cmp x z ≠ .gt := by
  rw [Ne, vCmp_gt_iff] at h1 h2 ⊢
  omega

theorem bundle_le_trans : ∀ {a b c : UpdateBundle}, a.le b → b.le c → a.le c := by
  intro a b c h1 h2
  unfold UpdateBundle.le UpdateBundle.cmp at h1 h2 ⊢
  rcases hab : strCmp a.compatible b.compatible with _ | _ | _ <;> simp only [hab] at h1 <;>
    rcases hbc : strCmp b.compatible c.compatible with _ | _ | _ <;> simp only [hbc] at h2
  · have sac : strCmp a.compatible c.compatible = .lt := strCmp_lt_trans hab hbc
    simp [sac]
  · have sac : strCmp a.compatible c.compatible = .lt :=
      ((strCmp_congr_right hbc a.compatible).symm).trans hab
    simp [sac]
  · exact absurd rfl h2
  · have sac : strCmp a.compatible c.compatible = .lt :=
      ((strCmp_congr_left hab c.compatible).symm).trans hbc
    simp [sac]
  · have sac : strCmp a.compatible c.compatible = .eq :=
      ((strCmp_congr_left hab c.compatible).symm).trans hbc
    simp only [sac]
    exact vLe_trans h1 h2
  · exact absurd rfl h2
  · exact absurd rfl h1
  · exact absurd rfl h1
  · exact absurd rfl h1

theorem Ordering_eq_of_swap_eq {o : Ordering} (h : Ordering.eq = o.swap) : o = .eq := by
  cases o <;> first | rfl | simp [Ordering.swap] at h

theorem Ordering_lt_of_swap_gt {o : Ordering} (h : Ordering.gt = o.swap) : o = .lt := by
  cases o <;> first | rfl | simp [Ordering.swap] at h

theorem bundle_le_total : ∀ (a b : UpdateBundle), a.le b ∨ b.le a := by
  intro a b
  unfold UpdateBundle.le UpdateBundle.cmp
  rcases h : strCmp a.compatible b.compatible with _ | _ | _
  · left; simp
  · have h2 : strCmp b.compatible a.compatible = .eq := by
      have hs := strCmp_swap a.compatible b.compatible
      rw [h] at hs
      exact Ordering_eq_of_swap_eq hs
    by_cases hv : Version.cmp a.version b.version = .gt
    · right
      simp only [h2]
      rw [Ne, vCmp_gt_iff]
      rw [vCmp_gt_iff] at hv
      omega
    · left
      simp only [h]
      exact hv
  · right
    have hs := strCmp_swap a.compatible b.compatible
    rw [h] at hs
    have hlt : strCmp b.compatible a.compatible = .lt := Ordering_lt_of_swap_gt hs
    simp [hlt]

instance : IsTrans UpdateBundle UpdateBundle.le :=
  ⟨fun _ _ _ => bundle_le_trans⟩

instance : IsTotal UpdateBundle UpdateBundle.le :=
  ⟨bundle_le_total⟩

/-- Error type (error.rs) restricted to the variants the verified code paths produce.
Payloads that come from external libraries (zbus error objects, io::Error texts, the
semver crate's parse-error text) are modelled as plain strings or omitted:
`SlotVersion` keeps the offending version string and the slot name and drops the
third field (the semver error text). -/
inductive Error where
  | AlreadyMounted (device mountpoint : String)
  | DeviceNotMounted (device : String)
  | Dbus (message : String)
  | BundleInfo (path reason : String)
  | BundleVersion (path version : String)
  | SlotVersion (version slot : String)
  | NoUpdateBundle
  | TooManyOverrides (paths : List String)
  | UnmountFailed (mountpoint : String)
  | UpdateFailed (message : String)
  | WrongState (state : String)
deriving DecidableEq

/-- A block device (device.rs `Device`): object path, once-settable mountpoint,
once-settable `unmountable` flag ("was mounted by us"), discovered top-level
bundle paths and override bundle paths.  The `OnceCell` fields are `Option`s. -/
structure Device where
  objectpath : String
  mountpoint : Option String
  unmountable : Option Bool
  bundles : List String
  override_bundles : List String
deriving DecidableEq

/-- `Device::is_mounted`: the mountpoint cell is set. -/
def Device.is_mounted (d : Device) : Bool :=
  d.mountpoint.isSome

/-- `Device::bundles()`: the top-level bundle paths, `None` when empty. -/
def Device.bundlesOpt (d : Device) : Option (List String) :=
  if !d.bundles.isEmpty then some d.bundles else none

/-- `Device::override_bundles()`: the override bundle paths, `None` when empty. -/
def Device.override_bundlesOpt (d : Device) : Option (List String) :=
  if !d.override_bundles.isEmpty then some d.override_bundles else none

/-- Slot information (rauc.rs `Slot`). -/
structure Slot where
  primary : Bool
  booted : Bool
  name : String
  version : Option Version
  status : Option (List (String × String))
deriving DecidableEq

/-- Information about the running RAUC system (rauc.rs `RaucInfo`). -/
structure RaucInfo where
  operation : String
  compatible : String
  variant : String
  boot_slot : String
  version : Option Version
  slots : List Slot
deriving DecidableEq

/-- `UpdateBundle::new` (rauc.rs): ask the installer for `(compatible, version)` of the
bundle at `path` (modelled by `info`), parse the version string strictly (modelled by
`parse`), and construct the bundle; an installer error becomes `BundleInfo`, a version
parse failure becomes `BundleVersion`. -/
def UpdateBundle.new (info : String → Option (String × String))
    (parse : String → Option Version) (path : String) (is_override : Bool) :
    Except Error UpdateBundle :=
  match info path with
  | some bundle_info =>
    match parse bundle_info.2 with
    | some version => .ok ⟨path, bundle_info.1, version, is_override⟩
    | none => .error (Error.BundleVersion path bundle_info.2)
  | none => .error (Error.BundleInfo path "info failed")

/-- All override bundle paths across all devices
(`devices.iter().filter_map(|x| x.override_bundles()).flatten().collect()`). -/
def overrideBundlePaths (devices : List Device) : List String :=
  (devices.filterMap Device.override_bundlesOpt).join

/-- All top-level bundle paths across all devices
(`devices.iter().filter_map(|x| x.bundles()).flatten().collect()`). -/
def topLevelBundlePaths (devices : List Device) : List String :=
  (devices.filterMap Device.bundlesOpt).join

/-- The body of the per-path loop of `get_update_bundle` (dbus.rs): construct the
bundle; keep it only if it is compatible and its version is strictly higher than the
current one (or the system has no version); on construction error warn and skip. -/
def addCompatible (info : String → Option (String × String)) (parse : String → Option Version)
    (rauc_info : RaucInfo) (bundles : List UpdateBundle) (path : String) : List UpdateBundle :=
  match UpdateBundle.new info parse path false with
  | .ok bundle =>
    if bundle.compatible = rauc_info.compatible then
      if rauc_info.version.isNone ||
          (match rauc_info.version with
           | some x => vLtB x bundle.version
           | none => false) then
        bundles ++ [bundle]
      else
        bundles
    else
      bundles
  | .error _ => bundles

/-- The compatible-bundle list built by the `for path in bundle_paths` loop of
`get_update_bundle`. -/
def compatibleBundles (info : String → Option (String × String))
    (parse : String → Option Version) (rauc_info : RaucInfo) (paths : List String) :
    List UpdateBundle :=
  paths.foldl (addCompatible info parse rauc_info) []

/-- The regular (non-override) tail of `get_update_bundle` (dbus.rs): collect
top-level bundle paths, keep compatible strictly-newer bundles, sort ascending
(`bundles.sort()` embedded as a stable insertion sort), reverse, pick the first. -/
def get_regular_bundle (info : String → Option (String × String))
    (parse : String → Option Version) (rauc_info : RaucInfo) (devices : List Device) :
    Except Error (Option UpdateBundle) :=
  if !(topLevelBundlePaths devices).isEmpty then
    if (compatibleBundles info parse rauc_info (topLevelBundlePaths devices)).isEmpty then
      .ok none
    else
      match (List.insertionSort UpdateBundle.le
          (compatibleBundles info parse rauc_info (topLevelBundlePaths devices))).reverse with
      | [] => .ok none
      | b :: _ => .ok (some b)
  else
    .ok none

/-- `get_update_bundle` (dbus.rs): override handling first — zero overrides fall
through, exactly one override is constructed and selected if compatible (otherwise
warn and fall through), two or more override paths fail with `TooManyOverrides` —
then the regular top-level bundle selection. -/
def get_update_bundle (info : String → Option (String × String))
    (parse : String → Option Version) (rauc_info : RaucInfo) (devices : List Device) :
    Except Error (Option UpdateBundle) :=
  match overrideBundlePaths devices with
  | [] => get_regular_bundle info parse rauc_info devices
  | [path] =>
    match UpdateBundle.new info parse path true with
    | .ok bundle =>
      if bundle.compatible = rauc_info.compatible then
        .ok (some bundle)
      else
        get_regular_bundle info parse rauc_info devices
    | .error _ => get_regular_bundle info parse rauc_info devices
  | _ => .error (Error.TooManyOverrides (overrideBundlePaths devices))

/-- The survival test of the regular selection, as an `Option`: `some bundle` iff the
bundle at `path` constructs successfully, its compatibility tag equals the system's,
and its version is strictly greater than the system's (or the system has no version). -/
def keepBundle (info : String → Option (String × String)) (parse : String → Option Version)
    (rauc_info : RaucInfo) (path : String) : Option UpdateBundle :=
  match UpdateBundle.new info parse path false with
  | .ok bundle =>
    if bundle.compatible = rauc_info.compatible then
      if rauc_info.version.isNone ||
          (match rauc_info.version with
           | some x => vLtB x bundle.version
           | none => false) then
        some bundle
      else
        none
    else
      none
  | .error _ => none

/-- The "surviving" top-level bundles of the selection: exactly the top-level bundle
paths passing `keepBundle`, in discovery order. -/
def survivors (info : String → Option (String × String)) (parse : String → Option Version)
    (rauc_info : RaucInfo) (devices : List Device) : List UpdateBundle :=
  (topLevelBundlePaths devices).filterMap (keepBundle info parse rauc_info)

theorem new_ok_fields {info : String → Option (String × String)}
    {parse : String → Option Version} {path : String} {io : Bool} {b : UpdateBundle}
    (h : UpdateBundle.new info parse path io = .ok b) :
    b.path = path ∧ b.is_override = io := by
  unfold UpdateBundle.new at h
  split at h
  · split at h
    · obtain rfl := Except.ok.inj h
      exact ⟨rfl, rfl⟩
    · exact absurd h (by simp)
  · exact absurd h (by simp)

theorem addCompatible_eq_keep (info : String → Option (String × String))
    (parse : String → Option Version) (rauc_info : RaucInfo)
    (bundles : List UpdateBundle) (path : String) :
    addCompatible info parse rauc_info bundles path =
      match keepBundle info parse rauc_info path with
      | some b => bundles ++ [b]
      | none => bundles := by
  unfold addCompatible keepBundle
  rcases UpdateBundle.new info parse path false with _ | b
  · rfl
  · by_cases hc : b.compatible = rauc_info.compatible
    · by_cases hv : (rauc_info.version.isNone ||
          (match rauc_info.version with
           | some x => vLtB x b.version
           | none => false)) = true
      · simp [hc, hv]
      · simp [hc, hv]
    · simp [hc]

theorem foldl_addCompatible (info : String → Option (String × String))
    (parse : String → Option Version) (rauc_info : RaucInfo) :
    ∀ (paths : List String) (acc : List UpdateBundle),
      paths.foldl (addCompatible info parse rauc_info) acc =
        acc ++ paths.filterMap (keepBundle info parse rauc_info) := by
  intro paths
  induction paths with
  | nil => simp
  | cons p ps ih =>
    intro acc
    rw [List.foldl_cons, List.filterMap_cons, addCompatible_eq_keep]
    rcases keepBundle info parse rauc_info p with _ | b
    · exact ih acc
    · rw [ih (acc ++ [b]), List.append_assoc]
      rfl

theorem compatibleBundles_eq_survivors (info : String → Option (String × String))
    (parse : String → Option Version) (rauc_info : RaucInfo) (devices : List Device) :
    compatibleBundles info parse rauc_info (topLevelBundlePaths devices) =
      survivors info parse rauc_info devices := by
  unfold compatibleBundles survivors
  rw [foldl_addCompatible]
  rfl

theorem keepBundle_spec {info : String → Option (String × String)}
    {parse : String → Option Version} {rauc_info : RaucInfo} {path : String}
    {b : UpdateBundle} (h : keepBundle info parse rauc_info path = some b) :
    b.compatible = rauc_info.compatible ∧
      (rauc_info.version = none ∨
        ∃ cur, rauc_info.version = some cur ∧ vLtB cur b.version = true) ∧
      b.is_override = false := by
  unfold keepBundle at h
  split at h
  next bundle hn =>
    split at h
    next hc =>
      split at h
      next hv =>
        obtain rfl := Option.some.inj h
        refine ⟨hc, ?_, (new_ok_fields hn).2⟩
        rcases hver : rauc_info.version with _ | cur
        · exact Or.inl rfl
        · right
          refine ⟨cur, rfl, ?_⟩
          rw [hver] at hv
          simpa using hv
      next hv => exact absurd h (by simp)
    next hc => exact absurd h (by simp)
  next e hn => exact absurd h (by simp)

theorem survivors_mem_spec {info : String → Option (String × String)}
    {parse : String → Option Version} {rauc_info : RaucInfo} {devices : List Device}
    {b : UpdateBundle} (h : b ∈ survivors info parse rauc_info devices) :
    b.compatible = rauc_info.compatible ∧
      (rauc_info.version = none ∨
        ∃ cur, rauc_info.version = some cur ∧ vLtB cur b.version = true) ∧
      b.is_override = false := by
  unfold survivors at h
  obtain ⟨path, _, hk⟩ := List.mem_filterMap.mp h
  exact keepBundle_spec hk

theorem sorted_reverse_head_max {S : List UpdateBundle} {b : UpdateBundle}
    {rest : List UpdateBundle}
    (hrev : (List.insertionSort UpdateBundle.le S).reverse = b :: rest) :
    b ∈ S ∧ ∀ x ∈ S, UpdateBundle.le x b := by
  have hperm := List.perm_insertionSort UpdateBundle.le S
  have hsort : List.Sorted UpdateBundle.le (List.insertionSort UpdateBundle.le S) :=
    List.sorted_insertionSort UpdateBundle.le S
  have hsplit : List.insertionSort UpdateBundle.le S = rest.reverse ++ [b] := by
    rw [← List.reverse_reverse (List.insertionSort UpdateBundle.le S), hrev, List.reverse_cons]
  have hbmem : b ∈ List.insertionSort UpdateBundle.le S := by
    rw [hsplit]
    exact List.mem_append_right _ (List.mem_singleton.mpr rfl)
  refine ⟨hperm.mem_iff.mp hbmem, ?_⟩
  intro x hx
  have hx2 : x ∈ List.insertionSort UpdateBundle.le S := hperm.mem_iff.mpr hx
  rw [hsplit] at hx2
  rcases List.mem_append.mp hx2 with hx3 | hx3
  · have hpw : List.Pairwise UpdateBundle.le (rest.reverse ++ [b]) := by
      rw [← hsplit]
      exact hsort
    exact (List.pairwise_append.mp hpw).2.2 x hx3 b (List.mem_singleton.mpr rfl)
  · obtain rfl := List.mem_singleton.mp hx3
    exact bundle_le_refl x

theorem get_regular_not_error (info : String → Option (String × String))
    (parse : String → Option Version) (rauc_info : RaucInfo) (devices : List Device) (e : Error) :
    get_regular_bundle info parse rauc_info devices ≠ .error e := by
  unfold get_regular_bundle
  split
  · split
    · simp
    · split <;> simp
  · simp

theorem get_regular_none (info : String → Option (String × String))
    (parse : String → Option Version) (rauc_info : RaucInfo) (devices : List Device)
    (h : get_regular_bundle info parse rauc_info devices = .ok none) :
    survivors info parse rauc_info devices = [] := by
  unfold get_regular_bundle at h
  rw [← compatibleBundles_eq_survivors]
  split at h
  · split at h
    next hbe => exact List.isEmpty_iff.mp hbe
    next hbe =>
      split at h
      next hrev =>
        have hnil : List.insertionSort UpdateBundle.le
            (compatibleBundles info parse rauc_info (topLevelBundlePaths devices)) = [] := by
          rwa [List.reverse_eq_nil_iff] at hrev
        have := List.perm_insertionSort UpdateBundle.le
          (compatibleBundles info parse rauc_info (topLevelBundlePaths devices))
        rw [hnil] at this
        exact this.symm.eq_nil
      next b rest hrev => exact absurd h (by simp)
  · next hne =>
    have : (topLevelBundlePaths devices).isEmpty = true := by
      revert hne
      rcases (topLevelBundlePaths devices).isEmpty with _ | _ <;> simp
    unfold compatibleBundles
    rw [List.isEmpty_iff.mp this]
    rfl

theorem get_regular_some (info : String → Option (String × String))
    (parse : String → Option Version) (rauc_info : RaucInfo) (devices : List Device)
    (b : UpdateBundle)
    (h : get_regular_bundle info parse rauc_info devices = .ok (some b)) :
    b ∈ survivors info parse rauc_info devices ∧
      ∀ x ∈ survivors info parse rauc_info devices, UpdateBundle.cmp x b ≠ .gt := by
  unfold get_regular_bundle at h
  rw [← compatibleBundles_eq_survivors]
  split at h
  · split at h
    next hbe => exact absurd h (by simp)
    next hbe =>
      split at h
      next hrev => exact absurd h (by simp)
      next b2 rest hrev =>
        obtain rfl : b2 = b := by
          have := Except.ok.inj h
          exact Option.some.inj this
        exact sorted_reverse_head_max hrev
  · exact absurd h (by simp)

theorem get_update_bundle_no_override (info : String → Option (String × String))
    (parse : String → Option Version) (rauc_info : RaucInfo) (devices : List Device)
    (h : overrideBundlePaths devices = []) :
    get_update_bundle info parse rauc_info devices =
      get_regular_bundle info parse rauc_info devices := by
  unfold get_update_bundle
  split
  · rfl
  · next heq => rw [h] at heq; exact absurd heq (by simp)
  · rename_i heq2 heq
    exact absurd h heq2

theorem no_override_paths {devices : List Device}
    (h : ∀ d ∈ devices, d.override_bundles = []) :
    overrideBundlePaths devices = [] := by
  unfold overrideBundlePaths
  have : devices.filterMap Device.override_bundlesOpt = [] := by
    rw [List.filterMap_eq_nil]
    intro d hd
    unfold Device.override_bundlesOpt
    rw [h d hd]
    rfl
  rw [this]
  rfl

/-- C1: with no override bundles on any device, `get_update_bundle` never errors;
it returns `none` exactly when no top-level bundle survives the
compatible-and-strictly-newer filter, and otherwise returns a surviving bundle
(hence one whose compatibility tag equals the system's and whose version is
strictly greater than the system's, or any compatible one when the system has no
version) that is greatest among the survivors under the (compatibility, version)
ordering. -/
theorem selector_no_override_greatest_survivor (info : String → Option (String × String))
    (parse : String → Option Version) (rauc_info : RaucInfo) (devices : List Device)
    (hov : ∀ d ∈ devices, d.override_bundles = []) :
    match get_update_bundle info parse rauc_info devices with
    | .error _ => False
    | .ok none => survivors info parse rauc_info devices = []
    | .ok (some b) =>
        b ∈ survivors info parse rauc_info devices ∧
        b.compatible = rauc_info.compatible ∧
        (rauc_info.version = none ∨
          ∃ cur, rauc_info.version = some cur ∧ vLtB cur b.version = true) ∧
        ∀ b2 ∈ survivors info parse rauc_info devices, UpdateBundle.cmp b2 b ≠ .gt := by
  rw [get_update_bundle_no_override info parse rauc_info devices (no_override_paths hov)]
  rcases hres : get_regular_bundle info parse rauc_info devices with e | ob
  · exact get_regular_not_error info parse rauc_info devices e hres
  · rcases ob with _ | b
    · exact get_regular_none info parse rauc_info devices hres
    · obtain ⟨hmem, hmax⟩ := get_regular_some info parse rauc_info devices b hres
      obtain ⟨hcomp, hver, _⟩ := survivors_mem_spec hmem
      exact ⟨hmem, hcomp, hver, hmax⟩

/-- C2: with exactly one override bundle path across all devices whose bundle
constructs successfully, a compatible override is selected regardless of version,
and an incompatible one makes the selector fall through to the regular top-level
bundle rules. -/
theorem selector_single_override (info : String → Option (String × String))
    (parse : String → Option Version) (rauc_info : RaucInfo) (devices : List Device)
    (path : String) (hov : overrideBundlePaths devices = [path]) (bundle : UpdateBundle)
    (hnew : UpdateBundle.new info parse path true = .ok bundle) :
    (bundle.compatible = rauc_info.compatible →
      get_update_bundle info parse rauc_info devices = .ok (some bundle)) ∧
    (bundle.compatible ≠ rauc_info.compatible →
      get_update_bundle info parse rauc_info devices =
        get_regular_bundle info parse rauc_info devices) := by
  unfold get_update_bundle
  simp only [hov, hnew]
  constructor
  · intro hc
    rw [if_pos hc]
  · intro hc
    rw [if_neg hc]

/-- C3: with two or more override bundle paths in total, the selector fails with
`TooManyOverrides` carrying exactly those paths, and selects nothing. -/
theorem selector_too_many_overrides (info : String → Option (String × String))
    (parse : String → Option Version) (rauc_info : RaucInfo) (devices : List Device)
    (hov : 2 ≤ (overrideBundlePaths devices).length) :
    get_update_bundle info parse rauc_info devices =
      .error (Error.TooManyOverrides (overrideBundlePaths devices)) := by
  unfold get_update_bundle
  rcases hlist : overrideBundlePaths devices with _ | ⟨p, _ | ⟨q, rest⟩⟩
  · rw [hlist] at hov
    simp at hov
  · rw [hlist] at hov
    simp at hov
  · simp only [hlist]

/-- Concrete installer-info table used by the witnesses. -/
def wInfo : String → Option (String × String) := fun path =>
  if path = "/media/a.raucb" then some ("genericx86-64", "1.0.0")
  else if path = "/media/b.raucb" then some ("genericx86-64", "2.0.0")
  else if path = "/media/override/o.raucb" then some ("genericx86-64", "0.1.0")
  else if path = "/media2/override/p.raucb" then some ("genericx86-64", "0.2.0")
  else none

/-- Concrete strict version parser used by the witnesses. -/
def wParse : String → Option Version := fun s =>
  if s = "0.1.0" then some ⟨0, 1, 0⟩
  else if s = "0.2.0" then some ⟨0, 2, 0⟩
  else if s = "1.0.0" then some ⟨1, 0, 0⟩
  else if s = "2.0.0" then some ⟨2, 0, 0⟩
  else none

/-- Concrete system identity used by the witnesses (system at version 0.5.0). -/
def wRauc : RaucInfo :=
  ⟨"idle", "genericx86-64", "", "rootfs.0", some ⟨0, 5, 0⟩, []⟩

/-- Concrete device with two top-level bundles and no override bundles. -/
def wDeviceMain : Device :=
  ⟨"/org/freedesktop/UDisks2/block_devices/sda1", some "/media", some true,
    ["/media/a.raucb", "/media/b.raucb"], []⟩

/-- Concrete device carrying one override bundle. -/
def wDeviceOverride : Device :=
  ⟨"/org/freedesktop/UDisks2/block_devices/sdb1", some "/media2", some true,
    [], ["/media/override/o.raucb"]⟩

/-- Concrete device carrying a second override bundle. -/
def wDeviceOverride2 : Device :=
  ⟨"/org/freedesktop/UDisks2/block_devices/sdc1", some "/media3", some true,
    [], ["/media2/override/p.raucb"]⟩

/-- The override bundle the C2 witness selects. -/
def wOverrideBundle : UpdateBundle :=
  ⟨"/media/override/o.raucb", "genericx86-64", ⟨0, 1, 0⟩, true⟩

theorem selector_no_override_greatest_survivor_witness :
    match get_update_bundle wInfo wParse wRauc [wDeviceMain] with
    | .error _ => False
    | .ok none => survivors wInfo wParse wRauc [wDeviceMain] = []
    | .ok (some b) =>
        b ∈ survivors wInfo wParse wRauc [wDeviceMain] ∧
        b.compatible = wRauc.compatible ∧
        (wRauc.version = none ∨
          ∃ cur, wRauc.version = some cur ∧ vLtB cur b.version = true) ∧
        ∀ b2 ∈ survivors wInfo wParse wRauc [wDeviceMain], UpdateBundle.cmp b2 b ≠ .gt :=
  selector_no_override_greatest_survivor wInfo wParse wRauc [wDeviceMain] (by decide)

theorem selector_single_override_witness :
    get_update_bundle wInfo wParse wRauc [wDeviceOverride, wDeviceMain] =
      .ok (some wOverrideBundle) :=
  (selector_single_override wInfo wParse wRauc [wDeviceOverride, wDeviceMain]
    "/media/override/o.raucb" (by decide) wOverrideBundle (by decide)).1 (by decide)

theorem selector_too_many_overrides_witness :
    get_update_bundle wInfo wParse wRauc [wDeviceOverride, wDeviceOverride2] =
      .error (Error.TooManyOverrides
        (overrideBundlePaths [wDeviceOverride, wDeviceOverride2])) :=
  selector_too_many_overrides wInfo wParse wRauc [wDeviceOverride, wDeviceOverride2]
    (by decide)

/-- Application state (dbus.rs `State`): most variants carry
`(updated, iteration)`; three teardown variants additionally carry `reboot`. -/
inductive State where
  | Done (updated : Bool) (iteration : Nat)
  | Idle (updated : Bool) (iteration : Nat)
  | Init
  | Mounted (updated : Bool) (iteration : Nat)
  | Mounting (updated : Bool) (iteration : Nat)
  | NoUpdateFound (updated : Bool) (iteration : Nat)
  | Searching (updated : Bool) (iteration : Nat)
  | Skip (updated : Bool) (iteration : Nat)
  | Unmounted (updated : Bool) (iteration : Nat) (reboot : Bool)
  | Unmounting (updated : Bool) (iteration : Nat) (reboot : Bool)
  | Updated (updated : Bool) (iteration : Nat) (reboot : Bool)
  | UpdateFound (updated : Bool) (iteration : Nat)
  | Updating (updated : Bool) (iteration : Nat)
deriving DecidableEq

/-- `State::get_updated`. -/
def State.get_updated : State → Bool
  | .Init => false
  | .Done updated _ | .UpdateFound updated _ | .Idle updated _ | .Mounting updated _
  | .Mounted updated _ | .NoUpdateFound updated _ | .Searching updated _
  | .Skip updated _ | .Unmounting updated _ _ | .Unmounted updated _ _
  | .Updating updated _ | .Updated updated _ _ => updated

/-- `State::get_iteration`. -/
def State.get_iteration : State → Nat
  | .Init => 0
  | .Done _ iteration | .UpdateFound _ iteration | .Idle _ iteration
  | .Mounting _ iteration | .Mounted _ iteration | .NoUpdateFound _ iteration
  | .Searching _ iteration | .Skip _ iteration | .Unmounting _ iteration _
  | .Unmounted _ iteration _ | .Updating _ iteration | .Updated _ iteration _ => iteration

/-- `State::get_marked_for_reboot`. -/
def State.get_marked_for_reboot : State → Bool
  | .Init | .Done _ _ | .UpdateFound _ _ | .Idle _ _ | .Mounting _ _ | .Mounted _ _
  | .NoUpdateFound _ _ | .Searching _ _ | .Updating _ _ | .Skip _ _ => false
  | .Unmounting _ _ reboot | .Unmounted _ _ reboot | .Updated _ _ reboot => reboot

/-- The strum `Display` tag of each state (dbus.rs `#[strum(to_string = ...)]`). -/
def State.toStr : State → String
  | .Done .. => "done"
  | .Idle .. => "idle"
  | .Init => "init"
  | .Mounted .. => "mounted"
  | .Mounting .. => "mounting"
  | .NoUpdateFound .. => "noupdatefound"
  | .Searching .. => "searching"
  | .Skip .. => "skip"
  | .Unmounted .. => "unmounted"
  | .Unmounting .. => "unmounting"
  | .Updated .. => "updated"
  | .UpdateFound .. => "updatefound"
  | .Updating .. => "updating"

/-- `Device::unmount_filesystem` (device.rs): skip (successfully) when the device was
not mounted via udisks (`unmountable == Some(false)`); otherwise issue a force-unmount
request (`gw`), clearing the mountpoint on success and failing with `UnmountFailed` on
failure.  The second component lists the object paths for which an unmount request was
actually sent to the gateway. -/
def Device.unmount_filesystem (gw : String → Bool) (d : Device) :
    Except Error Device × List String :=
  if d.unmountable = some false then
    (.ok d, [])
  else if gw d.objectpath then
    (.ok { d with mountpoint := none }, [d.objectpath])
  else
    (.error (Error.UnmountFailed (d.mountpoint.getD "unknown")), [d.objectpath])

/-- The `State::Unmounting` loop of the drain worker (dbus.rs): for each mounted
device call `unmount_filesystem` with `?`, so the first failure aborts the whole
loop.  Returns the unmount requests issued so far together with the result. -/
def unmountAll (gw : String → Bool) : List Device → List String × Except Error (List Device)
  | [] => ([], .ok [])
  | d :: rest =>
    if d.is_mounted then
      match (Device.unmount_filesystem gw d).1 with
      | .ok d2 =>
        match (unmountAll gw rest).2 with
        | .ok ds =>
          ((Device.unmount_filesystem gw d).2 ++ (unmountAll gw rest).1, .ok (d2 :: ds))
        | .error e =>
          ((Device.unmount_filesystem gw d).2 ++ (unmountAll gw rest).1, .error e)
      | .error e => ((Device.unmount_filesystem gw d).2, .error e)
    else
      match (unmountAll gw rest).2 with
      | .ok ds => ((unmountAll gw rest).1, .ok (d :: ds))
      | .error e => ((unmountAll gw rest).1, .error e)

/-- What one drain-worker arm does after committing the received state: the state
left in storage (only the `Idle` arm rewrites it), the messages posted to the inbox,
the device list after the arm ran, the unmount requests issued, and the side
effects (reboot request, autorun self-call of `InstallUpdate`, worker exit). -/
structure DrainOutcome where
  stored : State
  posts : List State
  devices : List Device
  requests : List String
  reboots : Bool
  callsInstall : Bool
  exits : Bool
deriving DecidableEq

/-- One iteration of the drain worker of `Caterpillar::init` (dbus.rs) on a received
state: commit the state, then act on it.  An `.error` result is the `?`-propagation
that terminates the worker task. -/
def handleState (autorun : Bool) (gw : String → Bool) (devices : List Device) :
    State → Except Error DrainOutcome
  | .Init => .ok ⟨.Init, [], devices, [], false, false, false⟩
  | .Mounting u i => .ok ⟨.Mounting u i, [], devices, [], false, false, false⟩
  | .Mounted u i => .ok ⟨.Mounted u i, [], devices, [], false, false, false⟩
  | .Searching u i => .ok ⟨.Searching u i, [], devices, [], false, false, false⟩
  | .Updating u i => .ok ⟨.Updating u i, [], devices, [], false, false, false⟩
  | .Done u i => .ok ⟨.Done u i, [], devices, [], false, false, true⟩
  | .UpdateFound u i =>
    .ok ⟨.UpdateFound u i, [], devices, [], false, i == 1 && autorun, false⟩
  | .NoUpdateFound u i =>
    .ok ⟨.NoUpdateFound u i, [.Unmounting u i false], devices, [], false, false, false⟩
  | .Idle u i => .ok ⟨.Idle u (i + 1), [], devices, [], false, false, false⟩
  | .Skip u i =>
    .ok ⟨.Skip u i, [.Unmounting u i false], devices, [], false, false, false⟩
  | .Unmounting u i r =>
    match (unmountAll gw devices).2 with
    | .ok ds =>
      .ok ⟨.Unmounting u i r, [.Unmounted u i r], ds, (unmountAll gw devices).1,
        false, false, false⟩
    | .error e => .error e
  | .Unmounted u i r =>
    if u && ((i == 1 && autorun) || r) then
      .ok ⟨.Unmounted u i r, [], [], [], true, false, false⟩
    else
      .ok ⟨.Unmounted u i r, [.Idle u i], [], [], false, false, false⟩
  | .Updated u i r =>
    .ok ⟨.Updated u i r, [.Unmounting true i r], devices, [], false, false, false⟩

/-- `Caterpillar::search_for_update` (dbus.rs): accepted only in `Idle` with
`updated == false`; the accepted branch captures `(updated, iteration)` for the
spawned search task; every other state replies with the AccessDenied text naming the
current state. -/
def search_for_update (s : State) : Except String (Bool × Nat) :=
  match s with
  | .Idle updated iteration =>
    if !updated then
      .ok (updated, iteration)
    else
      .error ("Already in state " ++ s.toStr)
  | _ => .error ("Already in state " ++ s.toStr)

/-- The accepted actions of `install_update`: spawn the install task, or post
`Skip` directly. -/
inductive MethodAction where
  | spawnInstall (updated : Bool) (iteration : Nat) (reboot : Bool)
  | postSkip (updated : Bool) (iteration : Nat)
deriving DecidableEq

/-- `Caterpillar::install_update` (dbus.rs): `UpdateFound` with `!updated && update`
spawns the install task (or fails with `NoUpdateBundle` when no bundle is stored);
`UpdateFound`/`NoUpdateFound` with `!update` post `Skip`; every other state replies
with a `WrongState` error — the fixed "updated already" text when the current
state's `updated` flag is set, the text naming the current state otherwise. -/
def install_update (s : State) (update : Bool) (reboot : Bool) (hasBundle : Bool) :
    Except String MethodAction :=
  match s with
  | .UpdateFound updated iteration =>
    if !updated && update then
      if hasBundle then
        .ok (.spawnInstall updated iteration reboot)
      else
        .error "No compatible RAUC update bundle found"
    else if !update then
      .ok (.postSkip updated iteration)
    else if s.get_updated then
      .error "Caterpillar is in wrong state: System is updated already, waiting for reboot"
    else
      .error ("Caterpillar is in wrong state: " ++ s.toStr)
  | .NoUpdateFound updated iteration =>
    if !update then
      .ok (.postSkip updated iteration)
    else if s.get_updated then
      .error "Caterpillar is in wrong state: System is updated already, waiting for reboot"
    else
      .error ("Caterpillar is in wrong state: " ++ s.toStr)
  | _ =>
    if s.get_updated then
      .error "Caterpillar is in wrong state: System is updated already, waiting for reboot"
    else
      .error ("Caterpillar is in wrong state: " ++ s.toStr)

/-- The sequence of states the spawned search task posts (dbus.rs
`search_for_update`): `Mounting`, `Mounted`, `Searching`, then `UpdateFound` or
`NoUpdateFound` depending on whether `get_update_bundle` found a bundle. -/
def searchTaskPosts (found : Bool) (updated : Bool) (iteration : Nat) : List State :=
  [.Mounting updated iteration, .Mounted updated iteration, .Searching updated iteration,
   if found then .UpdateFound updated iteration else .NoUpdateFound updated iteration]

/-- The spawned install task (dbus.rs `install_update`): posts `Updating`, runs
`UpdateBundle::install` (`installResult`: `none` = success, `some e` = failure with
error text `e`), renames an override bundle on success (`renameResult` likewise),
and posts `Updated` only when everything succeeded.  The second component is the
error the task itself returns (never surfaced on the already-sent method reply). -/
def installTask (installResult : Option String) (renameResult : Option String)
    (isOverride : Bool) (updated : Bool) (iteration : Nat) (reboot : Bool) :
    List State × Option String :=
  match installResult with
  | some e => ([.Updating updated iteration], some e)
  | none =>
    if isOverride then
      match renameResult with
      | some e => ([.Updating updated iteration], some e)
      | none =>
        ([.Updating updated iteration, .Updated updated iteration reboot], none)
    else
      ([.Updating updated iteration, .Updated updated iteration reboot], none)

/-- Two states sit at adjacent positions of the list `l`. -/
def Adj (l : List State) (a b : State) : Prop :=
  ∃ n, l.get? n = some a ∧ l.get? (n + 1) = some b

/-- All adjacent pairs of stored states the daemon can produce: the boot post
`Idle(false, 0)`, the in-place rewrite a drain arm performs, a drain-arm post
following the stored state, the post sequence of an accepted search task, the post
sequence of an accepted install task, and the `Skip` post of an accepted
skip request.  `autorun` is the configuration flag. -/
inductive Step (autorun : Bool) : State → State → Prop where
  | boot : Step autorun .Init (.Idle false 0)
  | drainStored (gw : String → Bool) (devices : List Device) (s : State)
      (out : DrainOutcome) :
      handleState autorun gw devices s = .ok out → Step autorun s out.stored
  | drainPost (gw : String → Bool) (devices : List Device) (s m : State)
      (out : DrainOutcome) :
      handleState autorun gw devices s = .ok out → m ∈ out.posts →
      Step autorun out.stored m
  | searchTask (s : State) (u : Bool) (i : Nat) (found : Bool) (a b : State) :
      search_for_update s = .ok (u, i) → Adj (s :: searchTaskPosts found u i) a b →
      Step autorun a b
  | installTaskStep (s : State) (update reboot hasBundle : Bool) (u : Bool) (i : Nat)
      (r : Bool) (installResult renameResult : Option String) (isOverride : Bool)
      (a b : State) :
      install_update s update reboot hasBundle = .ok (.spawnInstall u i r) →
      Adj (s :: (installTask installResult renameResult isOverride u i r).1) a b →
      Step autorun a b
  | skipPost (s : State) (update reboot hasBundle : Bool) (u : Bool) (i : Nat) :
      install_update s update reboot hasBundle = .ok (.postSkip u i) →
      Step autorun s (.Skip u i)

theorem handle_ok_stored {autorun : Bool} {gw : String → Bool} {devices : List Device}
    {s : State} {out : DrainOutcome} (h : handleState autorun gw devices s = .ok out) :
    out.stored.get_updated = s.get_updated ∧
      (out.stored = s ∨ ∃ u i, s = .Idle u i ∧ out.stored = .Idle u (i + 1)) := by
  cases s <;> simp only [handleState] at h
  · obtain rfl := Except.ok.inj h
    exact ⟨rfl, Or.inl rfl⟩
  · obtain rfl := Except.ok.inj h
    exact ⟨rfl, Or.inr ⟨_, _, rfl, rfl⟩⟩
  · obtain rfl := Except.ok.inj h
    exact ⟨rfl, Or.inl rfl⟩
  · obtain rfl := Except.ok.inj h
    exact ⟨rfl, Or.inl rfl⟩
  · obtain rfl := Except.ok.inj h
    exact ⟨rfl, Or.inl rfl⟩
  · obtain rfl := Except.ok.inj h
    exact ⟨rfl, Or.inl rfl⟩
  · obtain rfl := Except.ok.inj h
    exact ⟨rfl, Or.inl rfl⟩
  · obtain rfl := Except.ok.inj h
    exact ⟨rfl, Or.inl rfl⟩
  · split at h <;> (obtain rfl := Except.ok.inj h; exact ⟨rfl, Or.inl rfl⟩)
  · split at h
    · obtain rfl := Except.ok.inj h
      exact ⟨rfl, Or.inl rfl⟩
    · exact absurd h (by simp)
  · obtain rfl := Except.ok.inj h
    exact ⟨rfl, Or.inl rfl⟩
  · obtain rfl := Except.ok.inj h
    exact ⟨rfl, Or.inl rfl⟩
  · obtain rfl := Except.ok.inj h
    exact ⟨rfl, Or.inl rfl⟩

theorem handle_ok_posts {autorun : Bool} {gw : String → Bool} {devices : List Device}
    {s : State} {out : DrainOutcome} (h : handleState autorun gw devices s = .ok out) :
    ∀ m ∈ out.posts,
      out.stored.get_updated ≤ m.get_updated ∧
      m.get_iteration = out.stored.get_iteration := by
  cases s <;> simp only [handleState] at h
  · obtain rfl := Except.ok.inj h
    intro m hm
    exact absurd hm (by simp)
  · obtain rfl := Except.ok.inj h
    intro m hm
    exact absurd hm (by simp)
  · obtain rfl := Except.ok.inj h
    intro m hm
    exact absurd hm (by simp)
  · obtain rfl := Except.ok.inj h
    intro m hm
    exact absurd hm (by simp)
  · obtain rfl := Except.ok.inj h
    intro m hm
    exact absurd hm (by simp)
  · obtain rfl := Except.ok.inj h
    intro m hm
    obtain rfl := List.mem_singleton.mp hm
    exact ⟨le_refl _, rfl⟩
  · obtain rfl := Except.ok.inj h
    intro m hm
    exact absurd hm (by simp)
  · obtain rfl := Except.ok.inj h
    intro m hm
    obtain rfl := List.mem_singleton.mp hm
    exact ⟨le_refl _, rfl⟩
  · split at h <;> obtain rfl := Except.ok.inj h
    · intro m hm
      exact absurd hm (by simp)
    · intro m hm
      obtain rfl := List.mem_singleton.mp hm
      exact ⟨le_refl _, rfl⟩
  · split at h
    · obtain rfl := Except.ok.inj h
      intro m hm
      obtain rfl := List.mem_singleton.mp hm
      exact ⟨le_refl _, rfl⟩
    · exact absurd h (by simp)
  · obtain rfl := Except.ok.inj h
    intro m hm
    obtain rfl := List.mem_singleton.mp hm
    refine ⟨?_, rfl⟩
    rename_i u _ _
    cases u
    · exact Bool.false_le _
    · exact le_refl _
  · obtain rfl := Except.ok.inj h
    intro m hm
    exact absurd hm (by simp)
  · obtain rfl := Except.ok.inj h
    intro m hm
    exact absurd hm (by simp)

theorem search_ok_inv {s : State} {u : Bool} {i : Nat}
    (h : search_for_update s = .ok (u, i)) : s = .Idle u i ∧ u = false := by
  cases s
  · exact absurd h (by simp [search_for_update])
  · simp only [search_for_update] at h
    split at h
    · next hcond =>
      have h2 := Except.ok.inj h
      injection h2 with h3 h4
      subst h3
      subst h4
      refine ⟨rfl, ?_⟩
      simpa using hcond
    · exact absurd h (by simp)
  · exact absurd h (by simp [search_for_update])
  · exact absurd h (by simp [search_for_update])
  · exact absurd h (by simp [search_for_update])
  · exact absurd h (by simp [search_for_update])
  · exact absurd h (by simp [search_for_update])
  · exact absurd h (by simp [search_for_update])
  · exact absurd h (by simp [search_for_update])
  · exact absurd h (by simp [search_for_update])
  · exact absurd h (by simp [search_for_update])
  · exact absurd h (by simp [search_for_update])
  · exact absurd h (by simp [search_for_update])

theorem install_ok_spawn {s : State} {update reboot hasBundle : Bool} {u : Bool}
    {i : Nat} {r : Bool}
    (h : install_update s update reboot hasBundle = .ok (.spawnInstall u i r)) :
    s = .UpdateFound u i ∧ u = false ∧ update = true ∧ r = reboot := by
  cases s <;> simp only [install_update] at h
  · split at h <;> exact absurd h (by simp)
  · split at h <;> exact absurd h (by simp)
  · split at h <;> exact absurd h (by simp)
  · split at h <;> exact absurd h (by simp)
  · split at h <;> exact absurd h (by simp)
  · split at h
    · exact absurd (Except.ok.inj h) (by simp)
    · split at h <;> exact absurd h (by simp)
  · split at h <;> exact absurd h (by simp)
  · split at h <;> exact absurd h (by simp)
  · split at h <;> exact absurd h (by simp)
  · split at h <;> exact absurd h (by simp)
  · split at h <;> exact absurd h (by simp)
  · split at h
    · next hcond =>
      split at h
      · have h2 := Except.ok.inj h
        injection h2 with h3 h4 h5
        subst h3
        subst h4
        subst h5
        simp only [Bool.and_eq_true, Bool.not_eq_true'] at hcond
        exact ⟨rfl, hcond.1, hcond.2, rfl⟩
      · exact absurd h (by simp)
    · split at h
      · exact absurd (Except.ok.inj h) (by simp)
      · split at h <;> exact absurd h (by simp)
  · split at h <;> exact absurd h (by simp)

theorem install_ok_skip {s : State} {update reboot hasBundle : Bool} {u : Bool} {i : Nat}
    (h : install_update s update reboot hasBundle = .ok (.postSkip u i)) :
    (s = .UpdateFound u i ∨ s = .NoUpdateFound u i) ∧ update = false := by
  cases s <;> simp only [install_update] at h
  · split at h <;> exact absurd h (by simp)
  · split at h <;> exact absurd h (by simp)
  · split at h <;> exact absurd h (by simp)
  · split at h <;> exact absurd h (by simp)
  · split at h <;> exact absurd h (by simp)
  · split at h
    · next hupd =>
      have h2 := Except.ok.inj h
      injection h2 with h3 h4
      subst h3
      subst h4
      exact ⟨Or.inr rfl, by simpa using hupd⟩
    · split at h <;> exact absurd h (by simp)
  · split at h <;> exact absurd h (by simp)
  · split at h <;> exact absurd h (by simp)
  · split at h <;> exact absurd h (by simp)
  · split at h <;> exact absurd h (by simp)
  · split at h <;> exact absurd h (by simp)
  · split at h
    · split at h
      · exact absurd (Except.ok.inj h) (by simp)
      · exact absurd h (by simp)
    · split at h
      · next hupd =>
        have h2 := Except.ok.inj h
        injection h2 with h3 h4
        subst h3
        subst h4
        exact ⟨Or.inl rfl, by simpa using hupd⟩
      · split at h <;> exact absurd h (by simp)
  · split at h <;> exact absurd h (by simp)

theorem searchTaskPosts_flags {found u : Bool} {i : Nat} :
    ∀ x ∈ searchTaskPosts found u i, x.get_updated = u ∧ x.get_iteration = i := by
  intro x hx
  unfold searchTaskPosts at hx
  rcases found <;> simp at hx <;>
    rcases hx with rfl | rfl | rfl | rfl <;> exact ⟨rfl, rfl⟩

theorem installTaskPosts_flags {installResult renameResult : Option String}
    {isOverride : Bool} {u : Bool} {i : Nat} {r : Bool} :
    ∀ x ∈ (installTask installResult renameResult isOverride u i r).1,
      x.get_updated = u ∧ x.get_iteration = i := by
  intro x hx
  unfold installTask at hx
  rcases installResult with _ | e
  · rcases isOverride <;> simp at hx
    · rcases hx with rfl | rfl <;> exact ⟨rfl, rfl⟩
    · rcases renameResult with _ | e2 <;> simp at hx
      · rcases hx with rfl | rfl <;> exact ⟨rfl, rfl⟩
      · obtain rfl := hx
        exact ⟨rfl, rfl⟩
  · simp at hx
    obtain rfl := hx
    exact ⟨rfl, rfl⟩

theorem adj_mem {l : List State} {a b : State} (h : Adj l a b) : a ∈ l ∧ b ∈ l := by
  obtain ⟨n, ha, hb⟩ := h
  exact ⟨List.get?_mem ha, List.get?_mem hb⟩

theorem searchList_updated {s : State} {u : Bool} {i : Nat} {found : Bool} {x : State}
    (hs : s = .Idle u i) (hx : x ∈ s :: searchTaskPosts found u i) : x.get_updated = u := by
  rcases List.mem_cons.mp hx with rfl | hx2
  · rw [hs]; rfl
  · exact (searchTaskPosts_flags x hx2).1

theorem searchList_iteration {s : State} {u : Bool} {i : Nat} {found : Bool} {x : State}
    (hs : s = .Idle u i) (hx : x ∈ s :: searchTaskPosts found u i) : x.get_iteration = i := by
  rcases List.mem_cons.mp hx with rfl | hx2
  · rw [hs]; rfl
  · exact (searchTaskPosts_flags x hx2).2

theorem installList_updated {s : State} {u : Bool} {i : Nat}
    {ir rr : Option String} {io : Bool} {r : Bool} {x : State}
    (hs : s = .UpdateFound u i) (hx : x ∈ s :: (installTask ir rr io u i r).1) :
    x.get_updated = u := by
  rcases List.mem_cons.mp hx with rfl | hx2
  · rw [hs]; rfl
  · exact (installTaskPosts_flags x hx2).1

theorem installList_iteration {s : State} {u : Bool} {i : Nat}
    {ir rr : Option String} {io : Bool} {r : Bool} {x : State}
    (hs : s = .UpdateFound u i) (hx : x ∈ s :: (installTask ir rr io u i r).1) :
    x.get_iteration = i := by
  rcases List.mem_cons.mp hx with rfl | hx2
  · rw [hs]; rfl
  · exact (installTaskPosts_flags x hx2).2

theorem step_updated {autorun : Bool} {a b : State} (h : Step autorun a b) :
    a.get_updated ≤ b.get_updated := by
  cases h
  · decide
  · rename_i hok
    exact le_of_eq ((handle_ok_stored hok).1).symm
  · rename_i hok hm
    exact ((handle_ok_posts hok) _ hm).1
  · rename_i hok hadj
    obtain ⟨hs, hu⟩ := search_ok_inv hok
    obtain ⟨ha, hb⟩ := adj_mem hadj
    rw [searchList_updated hs ha, searchList_updated hs hb]
  · rename_i hok hadj
    obtain ⟨hs, hu, hup, hr⟩ := install_ok_spawn hok
    obtain ⟨ha, hb⟩ := adj_mem hadj
    rw [installList_updated hs ha, installList_updated hs hb]
  · rename_i hok
    obtain ⟨hs, hup⟩ := install_ok_skip hok
    rcases hs with rfl | rfl <;> exact le_refl _

theorem step_iteration {autorun : Bool} {a b : State} (h : Step autorun a b) :
    b.get_iteration = a.get_iteration ∨ ∃ u i, a = .Idle u i ∧ b = .Idle u (i + 1) := by
  cases h
  · left; rfl
  · rename_i hok
    rcases (handle_ok_stored hok).2 with heq | ⟨u, i, hs, hst⟩
    · left; rw [heq]
    · right; exact ⟨u, i, hs, hst⟩
  · rename_i hok hm
    left
    exact ((handle_ok_posts hok) _ hm).2
  · rename_i hok hadj
    obtain ⟨hs, hu⟩ := search_ok_inv hok
    obtain ⟨ha, hb⟩ := adj_mem hadj
    left
    rw [searchList_iteration hs ha, searchList_iteration hs hb]
  · rename_i hok hadj
    obtain ⟨hs, hu, hup, hr⟩ := install_ok_spawn hok
    obtain ⟨ha, hb⟩ := adj_mem hadj
    left
    rw [installList_iteration hs ha, installList_iteration hs hb]
  · rename_i hok
    obtain ⟨hs, hup⟩ := install_ok_skip hok
    rcases hs with rfl | rfl <;> (left; rfl)

/-- C7: along every chain of adjacent daemon transitions (drain-worker commits,
in-place rewrites and task posts), the `updated` flag is monotonically
non-decreasing, and once `true` it stays `true` at every later position. -/
theorem caterpillar_updated_monotone (autorun : Bool) (l : List State)
    (hc : List.Chain' (Step autorun) l) (i j : Nat) (hi : i < l.length)
    (hj : j < l.length) (hij : i ≤ j) :
    (l.get ⟨i, hi⟩).get_updated ≤ (l.get ⟨j, hj⟩).get_updated ∧
      ((l.get ⟨i, hi⟩).get_updated = true → (l.get ⟨j, hj⟩).get_updated = true) := by
  have hR : List.Chain' (fun a b : State => a.get_updated ≤ b.get_updated) l :=
    List.Chain'.imp (fun a b h => step_updated h) hc
  have hP : List.Pairwise (fun a b : State => a.get_updated ≤ b.get_updated) l :=
    (@List.chain'_iff_pairwise State (fun a b : State => a.get_updated ≤ b.get_updated)
      ⟨fun _ _ _ h1 h2 => le_trans h1 h2⟩ l).mp hR
  have hle : (l.get ⟨i, hi⟩).get_updated ≤ (l.get ⟨j, hj⟩).get_updated := by
    rcases Nat.lt_or_ge i j with hlt | hge
    · exact List.pairwise_iff_get.mp hP ⟨i, hi⟩ ⟨j, hj⟩ hlt
    · have heq : i = j := le_antisymm hij hge
      subst heq
      exact le_refl _
  refine ⟨hle, ?_⟩
  intro htrue
  cases hb : (l.get ⟨j, hj⟩).get_updated
  · rw [htrue, hb] at hle
    exact absurd hle (by decide)
  · rfl

theorem caterpillar_updated_monotone_witness :
    ([State.Init, State.Idle false 0].get ⟨0, by decide⟩).get_updated ≤
        ([State.Init, State.Idle false 0].get ⟨1, by decide⟩).get_updated ∧
      (([State.Init, State.Idle false 0].get ⟨0, by decide⟩).get_updated = true →
        ([State.Init, State.Idle false 0].get ⟨1, by decide⟩).get_updated = true) :=
  caterpillar_updated_monotone false [State.Init, State.Idle false 0]
    (List.chain'_cons.mpr ⟨Step.boot, List.chain'_singleton _⟩) 0 1 (by decide) (by decide)
    (by decide)

/-- C8: receiving `Idle(u, i)` commits it and immediately rewrites the stored state
in place to `Idle(u, i+1)` without posting anything, and this rewrite is the only
transition of the whole machine that changes the iteration counter — every other
step preserves it, and the rewrite increments it by exactly one. -/
theorem idle_reentry_only_iteration_increment (autorun : Bool) :
    (∀ (gw : String → Bool) (devices : List Device) (u : Bool) (i : Nat),
      handleState autorun gw devices (.Idle u i) =
        .ok ⟨.Idle u (i + 1), [], devices, [], false, false, false⟩) ∧
    (∀ a b : State, Step autorun a b →
      b.get_iteration = a.get_iteration ∨
        ∃ u i, a = .Idle u i ∧ b = .Idle u (i + 1)) :=
  ⟨fun _ _ _ _ => rfl, fun _ _ h => step_iteration h⟩

theorem idle_reentry_only_iteration_increment_witness :
    (handleState true (fun _ => true) [] (State.Idle false 3) =
      .ok ⟨State.Idle false 4, [], [], [], false, false, false⟩) ∧
    ((State.Idle false 0).get_iteration = State.Init.get_iteration ∨
      ∃ u i, State.Init = State.Idle u i ∧ State.Idle false 0 = State.Idle u (i + 1)) :=
  ⟨(idle_reentry_only_iteration_increment true).1 (fun _ => true) [] false 3,
   (idle_reentry_only_iteration_increment true).2 _ _ Step.boot⟩

set_option maxRecDepth 8192 in
/-- C4 counterexample: in state `Mounting(true, 1)` the rejected `install_update`
reply is the fixed "updated already" text, which neither equals the form that
names the current state nor contains the state tag "mounting" at all — so the
claim that every rejecting error names the current state is false. -/
theorem control_guard_counterexample :
    install_update (State.Mounting true 1) true false true =
      .error "Caterpillar is in wrong state: System is updated already, waiting for reboot" ∧
    install_update (State.Mounting true 1) true false true ≠
      .error ("Caterpillar is in wrong state: " ++ (State.Mounting true 1).toStr) ∧
    ¬ List.IsInfix (State.Mounting true 1).toStr.data
      "Caterpillar is in wrong state: System is updated already, waiting for reboot".data := by
  refine ⟨rfl, by decide, by decide⟩

/-- C4 (amended): `search_for_update` is accepted exactly in `Idle` with
`updated = false` and otherwise errors with a message naming the current state;
`install_update` is accepted only in `UpdateFound(updated=false)` with
`update = true` or in `UpdateFound`/`NoUpdateFound` with `update = false`, and in
every other state it errors without posting — with the fixed "updated already,
waiting for reboot" text when the current state's `updated` flag is set, and with
a message naming the current state otherwise. -/
theorem control_method_state_guard (s : State) :
    ((∃ x, search_for_update s = .ok x) ↔ ∃ i, s = State.Idle false i) ∧
    ((∀ i, s ≠ State.Idle false i) →
      search_for_update s = .error ("Already in state " ++ s.toStr)) ∧
    (∀ update reboot hasBundle a, install_update s update reboot hasBundle = .ok a →
      (update = true ∧ ∃ i, s = State.UpdateFound false i) ∨
      (update = false ∧ ∃ u i, s = State.UpdateFound u i ∨ s = State.NoUpdateFound u i)) ∧
    (∀ update reboot hasBundle,
      (∀ u i, s ≠ State.UpdateFound u i ∧ s ≠ State.NoUpdateFound u i) →
      install_update s update reboot hasBundle =
        .error (if s.get_updated then
            "Caterpillar is in wrong state: System is updated already, waiting for reboot"
          else "Caterpillar is in wrong state: " ++ s.toStr)) := by
  refine ⟨⟨?_, ?_⟩, ?_, ?_, ?_⟩
  · rintro ⟨⟨u2, i2⟩, hx⟩
    obtain ⟨hs, hu⟩ := search_ok_inv hx
    subst hu
    exact ⟨i2, hs⟩
  · rintro ⟨i, rfl⟩
    exact ⟨(false, i), rfl⟩
  · intro hne
    cases s <;> try rfl
    rename_i u i
    cases u
    · exact absurd rfl (hne i)
    · rfl
  · intro update reboot hasBundle a ha
    cases a with
    | spawnInstall u i r =>
      obtain ⟨hs, hu, hup, hr⟩ := install_ok_spawn ha
      subst hu
      exact Or.inl ⟨hup, i, hs⟩
    | postSkip u i =>
      obtain ⟨hs, hup⟩ := install_ok_skip ha
      exact Or.inr ⟨hup, u, i, hs⟩
  · intro update reboot hasBundle hne
    cases s
    · simp only [install_update]; split_ifs <;> rfl
    · simp only [install_update]; split_ifs <;> rfl
    · simp only [install_update]; split_ifs <;> rfl
    · simp only [install_update]; split_ifs <;> rfl
    · simp only [install_update]; split_ifs <;> rfl
    · exact absurd rfl (hne _ _).2
    · simp only [install_update]; split_ifs <;> rfl
    · simp only [install_update]; split_ifs <;> rfl
    · simp only [install_update]; split_ifs <;> rfl
    · simp only [install_update]; split_ifs <;> rfl
    · simp only [install_update]; split_ifs <;> rfl
    · exact absurd rfl (hne _ _).1
    · simp only [install_update]; split_ifs <;> rfl

theorem control_method_state_guard_witness :
    search_for_update (State.Searching false 2) =
      .error ("Already in state " ++ (State.Searching false 2).toStr) ∧
    install_update (State.Unmounting true 1 true) true false true =
      .error (if (State.Unmounting true 1 true).get_updated then
          "Caterpillar is in wrong state: System is updated already, waiting for reboot"
        else "Caterpillar is in wrong state: " ++ (State.Unmounting true 1 true).toStr) :=
  ⟨(control_method_state_guard (State.Searching false 2)).2.1
      (fun i h => State.noConfusion h),
   (control_method_state_guard (State.Unmounting true 1 true)).2.2.2 true false true
      (fun u i => ⟨fun h => State.noConfusion h, fun h => State.noConfusion h⟩)⟩

theorem unmount_req_spec {gw : String → Bool} {d : Device} {p : String}
    (hp : p ∈ (Device.unmount_filesystem gw d).2) :
    p = d.objectpath ∧ d.unmountable ≠ some false := by
  unfold Device.unmount_filesystem at hp
  split at hp
  · exact absurd hp (by simp)
  · next hcond =>
    split at hp <;> (obtain rfl := List.mem_singleton.mp hp; exact ⟨rfl, hcond⟩)

theorem unmountAll_requests {gw : String → Bool} :
    ∀ {devices : List Device} {p : String}, p ∈ (unmountAll gw devices).1 →
      ∃ d ∈ devices, d.objectpath = p ∧ d.unmountable ≠ some false ∧
        d.is_mounted = true := by
  intro devices
  induction devices with
  | nil =>
    intro p hp
    exact absurd hp (by simp [unmountAll])
  | cons d rest ih =>
    intro p hp
    unfold unmountAll at hp
    split at hp
    · next hm =>
      split at hp
      · split at hp <;>
          (rcases List.mem_append.mp hp with h1 | h1
           · obtain ⟨rfl, hno⟩ := unmount_req_spec h1
             exact ⟨d, List.mem_cons_self d rest, rfl, hno, hm⟩
           · obtain ⟨d2, hd2, h3⟩ := ih h1
             exact ⟨d2, List.mem_cons_of_mem d hd2, h3⟩)
      · obtain ⟨rfl, hno⟩ := unmount_req_spec hp
        exact ⟨d, List.mem_cons_self d rest, rfl, hno, hm⟩
    · split at hp <;>
        (obtain ⟨d2, hd2, h3⟩ := ih hp
         exact ⟨d2, List.mem_cons_of_mem d hd2, h3⟩)

theorem unmountAll_ok {gw : String → Bool} :
    ∀ {devices : List Device},
      (∀ d ∈ devices, d.is_mounted = true →
        d.unmountable = some false ∨ gw d.objectpath = true) →
      ∃ ds, (unmountAll gw devices).2 = .ok ds := by
  intro devices
  induction devices with
  | nil =>
    intro _
    exact ⟨[], rfl⟩
  | cons d rest ih =>
    intro h
    obtain ⟨ds, hds⟩ := ih (fun x hx hmx => h x (List.mem_cons_of_mem d hx) hmx)
    by_cases hm : d.is_mounted = true
    · have hok : ∃ d2, (Device.unmount_filesystem gw d).1 = .ok d2 := by
        rcases h d (List.mem_cons_self d rest) hm with hskip | hgw
        · exact ⟨d, by simp [Device.unmount_filesystem, hskip]⟩
        · unfold Device.unmount_filesystem
          split_ifs with h1
          · exact ⟨d, rfl⟩
          · exact ⟨_, rfl⟩
      obtain ⟨d2, hd2⟩ := hok
      refine ⟨d2 :: ds, ?_⟩
      unfold unmountAll
      rw [if_pos hm, hd2, hds]
    · have hm2 : d.is_mounted = false := by
        simpa using hm
      refine ⟨d :: ds, ?_⟩
      unfold unmountAll
      rw [if_neg (by simp [hm2]), hds]

/-- C5 (amended): on `Unmounting(u,i,r)` the drain worker attempts to unmount the
mounted devices in order; when every mounted device either is skipped (not mounted
by the daemon) or unmounts successfully, `Unmounted(u,i,r)` is posted; but a failed
unmount is fatal — the `?` propagation terminates the drain worker with the
`UnmountFailed` error, the remaining devices are not attempted and `Unmounted` is
never posted. -/
theorem unmounting_arm_behavior (autorun : Bool) (gw : String → Bool)
    (devices : List Device) (u : Bool) (i : Nat) (r : Bool) :
    ((∀ d ∈ devices, d.is_mounted = true →
        d.unmountable = some false ∨ gw d.objectpath = true) →
      ∃ ds, handleState autorun gw devices (.Unmounting u i r) =
        .ok ⟨.Unmounting u i r, [.Unmounted u i r], ds, (unmountAll gw devices).1,
          false, false, false⟩) ∧
    (∀ e, (unmountAll gw devices).2 = .error e →
      handleState autorun gw devices (.Unmounting u i r) = .error e) := by
  constructor
  · intro h
    obtain ⟨ds, hds⟩ := unmountAll_ok h
    refine ⟨ds, ?_⟩
    simp only [handleState, hds]
  · intro e he
    simp only [handleState, he]

/-- Device used by the C5 counterexample: mounted by the daemon at /mnt1. -/
def cDevA : Device :=
  ⟨"/org/freedesktop/UDisks2/block_devices/sdd1", some "/mnt1", some true, [], []⟩

/-- Device used by the C5 counterexample: mounted by the daemon at /mnt2. -/
def cDevB : Device :=
  ⟨"/org/freedesktop/UDisks2/block_devices/sde1", some "/mnt2", some true, [], []⟩

/-- C5 counterexample: with two mounted daemon-mounted devices and a gateway on
which every unmount request fails, handling `Unmounting(false,1,false)` terminates
the drain worker with the `UnmountFailed` error — so `Unmounted` is never posted —
and only the first device's unmount was requested: the second device is not
attempted, contradicting the claim that failures are non-fatal, that all mounted
devices are attempted, and that `Unmounted(u,i,r)` is posted afterwards. -/
theorem unmounting_failure_fatal_counterexample :
    handleState true (fun _ => false) [cDevA, cDevB] (State.Unmounting false 1 false) =
      .error (Error.UnmountFailed "/mnt1") ∧
    (unmountAll (fun _ => false) [cDevA, cDevB]).1 =
      ["/org/freedesktop/UDisks2/block_devices/sdd1"] := by
  exact ⟨rfl, rfl⟩

/-- C6 counterexample: an accepted `install_update` returns `Ok` at spawn time, and
when the installer then fails, the spawned task has posted only `Updating(false,1)`
— no `Unmounting`, no `Unmounted` — and carries the error text only in its own
discarded result; the state machine does not transition back through teardown and
the method reply does not surface the error. -/
theorem install_failure_counterexample :
    installTask (some "RAUC error: bad bundle") none false false 1 false =
      ([State.Updating false 1], some "RAUC error: bad bundle") ∧
    install_update (State.UpdateFound false 1) true false true =
      .ok (MethodAction.spawnInstall false 1 false) := by
  exact ⟨rfl, rfl⟩

/-- C6 (amended): when the installer reports failure, the spawned install task has
posted exactly `Updating(u,i)` — it never posts `Updated` or any teardown state, so
`updated` is not advanced — and terminates carrying the error text, while the
method reply was already sent as success when the task was spawned. -/
theorem install_failure_no_teardown (e : String) (renameResult : Option String)
    (isOverride : Bool) (u : Bool) (i : Nat) (r : Bool) :
    installTask (some e) renameResult isOverride u i r =
      ([State.Updating u i], some e) ∧
    (∀ (i2 : Nat) (r2 : Bool),
      install_update (State.UpdateFound false i2) true r2 true =
        .ok (MethodAction.spawnInstall false i2 r2)) := by
  exact ⟨rfl, fun _ _ => rfl⟩

/-- C9: `unmount_filesystem` on a device whose mountpoint was found already
mounted (`unmountable = Some(false)`) is a no-op success that issues no unmount
request, and consequently every unmount request the teardown loop ever issues
belongs to a mounted device that the daemon mounted itself. -/
theorem unmount_skip_not_mounted_by_us :
    (∀ (gw : String → Bool) (d : Device), d.unmountable = some false →
      Device.unmount_filesystem gw d = (.ok d, [])) ∧
    (∀ (gw : String → Bool) (devices : List Device) (p : String),
      p ∈ (unmountAll gw devices).1 →
      ∃ d ∈ devices, d.objectpath = p ∧ d.unmountable ≠ some false ∧
        d.is_mounted = true) := by
  constructor
  · intro gw d h
    unfold Device.unmount_filesystem
    rw [if_pos h]
  · intro gw devices p hp
    exact unmountAll_requests hp

/-- Device used by the C9 witness: found already mounted (not mounted by us). -/
def cDevSkip : Device :=
  ⟨"/org/freedesktop/UDisks2/block_devices/sdf1", some "/mnt3", some false, [], []⟩

theorem unmount_skip_not_mounted_by_us_witness :
    Device.unmount_filesystem (fun _ => false) cDevSkip = (.ok cDevSkip, []) :=
  unmount_skip_not_mounted_by_us.1 (fun _ => false) cDevSkip rfl

theorem unmounting_arm_behavior_witness :
    ∃ ds, handleState true (fun _ => true) [cDevA] (State.Unmounting false 1 false) =
      .ok ⟨State.Unmounting false 1 false, [State.Unmounted false 1 false], ds,
        (unmountAll (fun _ => true) [cDevA]).1, false, false, false⟩ :=
  (unmounting_arm_behavior true (fun _ => true) [cDevA] false 1 false).1 (by decide)

/-- The slot-version computation of one loop turn of `RaucInfo::new` (rauc.rs): a
`"bundle.version"` entry in the slot's status map must parse strictly; a parse
failure is the `SlotVersion` error (its third Rust field, the semver error text,
comes from the external parser and is omitted here). -/
def slotVersionOf (parse : String → Option Version) (slot_name : String)
    (raw_slot_status : Option (List (String × String))) : Except Error (Option Version) :=
  match raw_slot_status with
  | some map =>
    match List.lookup "bundle.version" map with
    | some map_version =>
      match parse map_version with
      | some version => .ok (some version)
      | none => .error (Error.SlotVersion map_version slot_name)
    | none => .ok none
  | none => .ok none

/-- `unwrap_slot_status` (rauc.rs): the last status map whose slot name equals
`key` (the zbus variant unwrapping to strings is the wire layer, out of scope). -/
def unwrap_slot_status (key : String)
    (status : List (String × List (String × String))) :
    Option (List (String × String)) :=
  (status.filterMap (fun x => if x.1 = key then some x.2 else none)).getLast?

/-- `get_slot_names` (rauc.rs). -/
def get_slot_names (status : List (String × List (String × String))) : List String :=
  status.map (fun x => x.1)

/-- The `slot_booted` computation of `RaucInfo::new` (rauc.rs). -/
def slotBooted (raw : Option (List (String × String))) : Bool :=
  match raw with
  | some m =>
    match List.lookup "state" m with
    | some st => st == "booted" || st == "active"
    | none => false
  | none => false

/-- The slot loop of `RaucInfo::new` (rauc.rs): build the `Slot` list in order,
exposing the last primary slot's version as the system version; the first slot
whose `"bundle.version"` fails to parse aborts the whole construction. -/
def processSlots (parse : String → Option Version) (primary : String)
    (slot_status : List (String × List (String × String))) :
    List String → List Slot → Option Version → Except Error (List Slot × Option Version)
  | [], slots, system_version => .ok (slots, system_version)
  | slot_name :: rest, slots, system_version =>
    match slotVersionOf parse slot_name (unwrap_slot_status slot_name slot_status) with
    | .error e => .error e
    | .ok slot_version =>
      processSlots parse primary slot_status rest
        (slots ++ [⟨slot_name == primary,
          slotBooted (unwrap_slot_status slot_name slot_status), slot_name, slot_version,
          unwrap_slot_status slot_name slot_status⟩])
        (if slot_name == primary && slot_version.isSome then slot_version
         else system_version)

/-- `RaucInfo::new` (rauc.rs), parametrised over the already-received installer
property values (`operation`, `compatible`, `variant`, `boot_slot`, `primary`,
`slot_status`) and the external strict version parser. -/
def RaucInfo.new (parse : String → Option Version)
    (operation compatible variant boot_slot primary : String)
    (slot_status : List (String × List (String × String))) : Except Error RaucInfo :=
  match processSlots parse primary slot_status (get_slot_names slot_status) [] none with
  | .error e => .error e
  | .ok x => .ok ⟨operation, compatible, variant, boot_slot, x.2, x.1⟩

/-- `test_connections` (dbus.rs): logind, then UDisks2, then RAUC must all
answer; the first failure is returned and `Caterpillar::init` propagates it with
`?`, making it fatal at daemon start. -/
def test_connections (login : Option String) (udisks : Except Error String)
    (rauc : Except Error RaucInfo) : Except Error Unit :=
  match login with
  | some e => .error (Error.Dbus e)
  | none =>
    match udisks with
    | .error e => .error e
    | .ok _ =>
      match rauc with
      | .error e => .error e
      | .ok _ => .ok ()

theorem slotVersionOf_error_shape {parse : String → Option Version} {slot_name : String}
    {raw : Option (List (String × String))} {e : Error}
    (h : slotVersionOf parse slot_name raw = .error e) :
    ∃ ver, e = Error.SlotVersion ver slot_name := by
  unfold slotVersionOf at h
  split at h
  · split at h
    · split at h
      · exact absurd h (by simp)
      · exact ⟨_, (Except.error.inj h).symm⟩
    · exact absurd h (by simp)
  · exact absurd h (by simp)

theorem processSlots_error_of_bad {parse : String → Option Version} {primary : String}
    {slot_status : List (String × List (String × String))} :
    ∀ (names : List String) (slots : List Slot) (sysv : Option Version),
      (∃ name ∈ names, ∃ m, unwrap_slot_status name slot_status = some m ∧
        ∃ v, List.lookup "bundle.version" m = some v ∧ parse v = none) →
      ∃ ver slot, processSlots parse primary slot_status names slots sysv =
        .error (Error.SlotVersion ver slot) := by
  intro names
  induction names with
  | nil =>
    rintro slots sysv ⟨name, hmem, _⟩
    exact absurd hmem (by simp)
  | cons n rest ih =>
    rintro slots sysv ⟨name, hmem, m, hum, v, hlv, hpv⟩
    unfold processSlots
    rcases hsv : slotVersionOf parse n (unwrap_slot_status n slot_status) with e | ov
    · obtain ⟨ver, he⟩ := slotVersionOf_error_shape hsv
      refine ⟨ver, n, ?_⟩
      simp only [hsv]
      rw [he]
    · simp only [hsv]
      rcases List.mem_cons.mp hmem with rfl | hmem2
      · exfalso
        unfold slotVersionOf at hsv
        simp only [hum, hlv, hpv] at hsv
        exact absurd hsv (by simp)
      · exact ih _ _ ⟨name, hmem2, m, hum, v, hlv, hpv⟩

/-- C10: whenever any slot of the slot-status response carries a
`"bundle.version"` entry that the strict semantic-version parser rejects,
`RaucInfo::new` as a whole fails with the `SlotVersion` error instead of skipping
that slot, and since `RaucInfo::new` is part of `test_connections`, which
`Caterpillar::init` propagates, the same error is the (fatal) result of the
startup connection test. -/
theorem slot_version_parse_fatal (parse : String → Option Version)
    (operation compatible variant boot_slot primary : String)
    (slot_status : List (String × List (String × String)))
    (hbad : ∃ name ∈ get_slot_names slot_status, ∃ m,
      unwrap_slot_status name slot_status = some m ∧
      ∃ v, List.lookup "bundle.version" m = some v ∧ parse v = none) :
    ∃ ver slot,
      RaucInfo.new parse operation compatible variant boot_slot primary slot_status =
        .error (Error.SlotVersion ver slot) ∧
      ∀ udisksVersion, test_connections none (.ok udisksVersion)
          (RaucInfo.new parse operation compatible variant boot_slot primary
            slot_status) =
        .error (Error.SlotVersion ver slot) := by
  obtain ⟨ver, slot, hps⟩ :=
    @processSlots_error_of_bad parse primary slot_status (get_slot_names slot_status)
      [] none hbad
  refine ⟨ver, slot, ?_, ?_⟩
  · unfold RaucInfo.new
    simp only [hps]
  · intro uv
    unfold test_connections RaucInfo.new
    simp only [hps]

theorem slot_version_parse_fatal_witness :
    ∃ ver slot,
      RaucInfo.new (fun _ => none) "installing" "genericx86-64" "" "rootfs.0" "rootfs.0"
          [("rootfs.0", [("bundle.version", "not-a-version")])] =
        .error (Error.SlotVersion ver slot) ∧
      ∀ udisksVersion, test_connections none (.ok udisksVersion)
          (RaucInfo.new (fun _ => none) "installing" "genericx86-64" "" "rootfs.0"
            "rootfs.0" [("rootfs.0", [("bundle.version", "not-a-version")])]) =
        .error (Error.SlotVersion ver slot) :=
  slot_version_parse_fatal (fun _ => none) "installing" "genericx86-64" "" "rootfs.0"
    "rootfs.0" [("rootfs.0", [("bundle.version", "not-a-version")])]
    ⟨"rootfs.0", by decide, [("bundle.version", "not-a-version")], rfl,
      "not-a-version", rfl, rfl⟩
